import Mathlib

/-!
Shallow embedding of the video-analyzer agent decision engine.

Sources embedded:
- src/src/agentRunner.ts : agent state, double-quit rule, argument extraction,
  tool-inference fallback.
- src/src/simulationSummary.ts : watch-time aggregation.
- src/src/openrouterClient.ts : streaming tool-call client with retry/backoff.

TypeScript `number` values are modelled as `Int` where they are indices and as
`Rat` where they are times or JSON numbers; strings are Lean `String`s.
-/

set_option maxRecDepth 100000
set_option maxHeartbeats 1000000

namespace VideoAnalyzer

/-! ## Data model (src/src/videoSegmenter.ts, src/src/agentRunner.ts) -/

/-- One video segment, as produced by the external segmenter. -/
structure Segment where
  index : Int
  start : Rat
  «end» : Rat
  framePath : String
  subtitle : String
deriving Repr, DecidableEq

instance : Inhabited Segment := ⟨⟨0, 0, 0, "", ""⟩⟩

/-- The two tools the viewer agent may call. -/
inductive AgentToolName
  | keep_playing
  | quit_video
deriving Repr, DecidableEq

/-- Agent status string union from agentRunner.ts. -/
inductive AgentStatus
  | watching
  | probation
  | stopped
deriving Repr, DecidableEq

/-- Per-agent leniency state (agentRunner.ts `AgentState`). -/
structure AgentState where
  firstQuitSeen : Bool
  stopped : Bool
  stopSegmentIndex : Option Int
  status : AgentStatus
deriving Repr, DecidableEq

/-- Result of applying one tool call to a state (`DoubleQuitDecision`). -/
inductive Decision
  | «continue»
  | stop
deriving Repr, DecidableEq

structure DoubleQuitDecision where
  coercedTool : AgentToolName
  decision : Decision
  state : AgentState
deriving Repr, DecidableEq

/-- agentRunner.ts `initialAgentState`. -/
def initialAgentState : AgentState :=
  { firstQuitSeen := false, stopped := false, stopSegmentIndex := none,
    status := .watching }

/-- agentRunner.ts `applyDoubleQuitRule` (lines 68-105). -/
def applyDoubleQuitRule (state : AgentState) (tool : AgentToolName)
    (segmentIndex : Int) : DoubleQuitDecision :=
  match tool with
  | .quit_video =>
    if !state.firstQuitSeen then
      { coercedTool := .keep_playing
        decision := .«continue»
        state := { state with firstQuitSeen := true, status := .probation } }
    else
      { coercedTool := .quit_video
        decision := .stop
        state :=
          { state with
            stopped := true
            stopSegmentIndex := some segmentIndex
            status := .stopped } }
  | .keep_playing =>
    { coercedTool := .keep_playing
      decision := .«continue»
      state := state }

/-! ## Simulation summary (src/src/simulationSummary.ts) -/

structure AgentRunResult where
  agentId : String
  stopSegmentIndex : Option Int
deriving Repr, DecidableEq

structure AgentWatchSummary where
  agentId : String
  stopSegmentIndex : Option Int
  watchSeconds : Rat
deriving Repr, DecidableEq

structure SimulationSummary where
  videoDurationSeconds : Rat
  averageWatchSeconds : Rat
  perAgent : List AgentWatchSummary
deriving Repr, DecidableEq

/-- simulationSummary.ts `getVideoDurationSecondsFromSegments`. -/
def getVideoDurationSecondsFromSegments (segments : List Segment) : Rat :=
  if segments.length = 0 then 0
  else (segments.getD (segments.length - 1) default).«end»

/-- simulationSummary.ts `getWatchSecondsForStopIndex` (lines 22-34).
The stop index is clamped into `[0, length-1]` exactly as
`Math.max(0, Math.min(stopSegmentIndex, segments.length - 1))` does. -/
def getWatchSecondsForStopIndex (segments : List Segment)
    (stopSegmentIndex : Option Int) : Rat :=
  if segments.length = 0 then 0
  else
    match stopSegmentIndex with
    | none => getVideoDurationSecondsFromSegments segments
    | some idx =>
      let clamped : Int := max 0 (min idx ((segments.length : Int) - 1))
      (segments.getD clamped.toNat default).«end»

/-- simulationSummary.ts `summarizeSimulation` (lines 36-54). -/
def summarizeSimulation (segments : List Segment)
    (results : List AgentRunResult) : SimulationSummary :=
  let perAgent := results.map (fun r =>
    AgentWatchSummary.mk r.agentId r.stopSegmentIndex
      (getWatchSecondsForStopIndex segments r.stopSegmentIndex))
  let totalWatchSeconds := perAgent.foldl (fun sum row => sum + row.watchSeconds) 0
  let averageWatchSeconds :=
    if perAgent.length = 0 then 0 else totalWatchSeconds / (perAgent.length : Rat)
  { videoDurationSeconds := getVideoDurationSecondsFromSegments segments
    averageWatchSeconds := averageWatchSeconds
    perAgent := perAgent }

/-! ## Character and string helpers with JavaScript semantics -/

/-- The left brace character, kept out of literals. -/
def lbrace : Char := Char.ofNat 123

/-- The right brace character. -/
def rbrace : Char := Char.ofNat 125

/-- Whitespace for JS `trim` and the regex class `\s` (ASCII subset). -/
def isJsWs (c : Char) : Bool :=
  c = ' ' || c = '\t' || c = '\n' || c = '\r' || c = Char.ofNat 11 || c = Char.ofNat 12

/-- JS `String.prototype.trim`. -/
def trimChars (cs : List Char) : List Char :=
  ((cs.dropWhile isJsWs).reverse.dropWhile isJsWs).reverse

/-- Does `cs` start with `pat` (JS `startsWith` / regex literal at position 0)? -/
def literalAt (cs pat : List Char) : Bool :=
  cs.take pat.length == pat

/-- JS `String.prototype.includes` for a literal pattern. -/
def containsSub (s pat : List Char) : Bool :=
  match s with
  | [] => pat.isEmpty
  | _ :: rest => literalAt s pat || containsSub rest pat

/-- JS `lastIndexOf` for a single character. -/
def lastIndexOfChar (cs : List Char) (c : Char) : Option Nat :=
  match cs.reverse.findIdx? (· = c) with
  | some k => some (cs.length - 1 - k)
  | none => none

/-- JS `String.prototype.slice start end` (non-negative indices). -/
def sliceChars (cs : List Char) (i j : Nat) : List Char :=
  (cs.take j).drop i

/-- JS `replace(/lit/g, "")`: remove all non-overlapping occurrences,
left to right. -/
def removeAllAux : Nat → List Char → List Char → List Char
  | 0, s, _ => s
  | fuel+1, s, pat =>
    match s with
    | [] => []
    | c :: rest =>
      if literalAt s pat && !pat.isEmpty then
        removeAllAux fuel (s.drop pat.length) pat
      else c :: removeAllAux fuel rest pat

def removeAll (s pat : List Char) : List Char :=
  removeAllAux s.length s pat

/-- JS `replace(/^lit/, "")`. -/
def dropPrefixLit (s pat : List Char) : List Char :=
  if literalAt s pat then s.drop pat.length else s

/-- JS `replace(/lit$/, "")`. -/
def dropSuffixLit (s pat : List Char) : List Char :=
  if literalAt s.reverse pat.reverse then s.take (s.length - pat.length) else s

def digitVal (c : Char) : Nat := c.toNat - 48

/-- Digits to a natural number (models `parseInt(m, 10)` on a digit string). -/
def digitsToNat (ds : List Char) : Nat :=
  ds.foldl (fun n c => 10 * n + digitVal c) 0

def hexVal (c : Char) : Option Nat :=
  if '0' ≤ c && c ≤ '9' then some (c.toNat - 48)
  else if 'a' ≤ c && c ≤ 'f' then some (c.toNat - 97 + 10)
  else if 'A' ≤ c && c ≤ 'F' then some (c.toNat - 65 + 10)
  else none

/-! ## JSON values and a fuel-based parser (models `JSON.parse`) -/

inductive Json where
  | null
  | bool (b : Bool)
  | num (q : Rat)
  | str (s : String)
  | arr (elems : List Json)
  | obj (fields : List (String × Json))
deriving Repr

/-- Object field lookup; the LAST binding wins, as with duplicate keys in
`JSON.parse` and with JS object assignment order. -/
def Json.lookup (j : Json) (key : String) : Option Json :=
  match j with
  | .obj fields => (fields.reverse.find? (fun kv => kv.1 == key)).map (·.2)
  | _ => none

def Json.asString? : Json → Option String
  | .str s => some s
  | _ => none

def Json.asArr? : Json → Option (List Json)
  | .arr xs => some xs
  | _ => none

def Json.asNum? : Json → Option Rat
  | .num q => some q
  | _ => none

/-- Insignificant whitespace of the JSON grammar: exactly space, tab, line
feed and carriage return. `JSON.parse` rejects other whitespace such as
vertical tab and form feed, which JS `trim` and `\s` do accept. -/
def isJsonWs (c : Char) : Bool :=
  c = ' ' || c = '\t' || c = '\n' || c = '\r'

/-- JSON string body after the opening quote; produces the decoded string and
the remainder after the closing quote. Fails exactly where `JSON.parse` throws:
unterminated string, raw control character, invalid escape. -/
def parseJsonStringBody : Nat → List Char → List Char → Option (String × List Char)
  | 0, _, _ => none
  | _+1, [], _ => none
  | fuel+1, c :: rest, acc =>
    if c = '"' then some (String.mk acc.reverse, rest)
    else if c = '\\' then
      match rest with
      | [] => none
      | esc :: rest2 =>
        if esc = '"' then parseJsonStringBody fuel rest2 ('"' :: acc)
        else if esc = '\\' then parseJsonStringBody fuel rest2 ('\\' :: acc)
        else if esc = '/' then parseJsonStringBody fuel rest2 ('/' :: acc)
        else if esc = 'b' then parseJsonStringBody fuel rest2 (Char.ofNat 8 :: acc)
        else if esc = 'f' then parseJsonStringBody fuel rest2 (Char.ofNat 12 :: acc)
        else if esc = 'n' then parseJsonStringBody fuel rest2 ('\n' :: acc)
        else if esc = 'r' then parseJsonStringBody fuel rest2 ('\r' :: acc)
        else if esc = 't' then parseJsonStringBody fuel rest2 ('\t' :: acc)
        else if esc = 'u' then
          match rest2 with
          | h1 :: h2 :: h3 :: h4 :: rest3 =>
            match hexVal h1, hexVal h2, hexVal h3, hexVal h4 with
            | some a, some b, some c', some d =>
              parseJsonStringBody fuel rest3
                (Char.ofNat (((a * 16 + b) * 16 + c') * 16 + d) :: acc)
            | _, _, _, _ => none
          | _ => none
        else none
    else if c.toNat < 32 then none
    else parseJsonStringBody fuel rest (c :: acc)

/-- JSON number literal. -/
def parseJsonNumber (cs : List Char) : Option (Rat × List Char) :=
  let (neg, cs1) :=
    match cs with
    | '-' :: rest => (true, rest)
    | _ => (false, cs)
  let ints := cs1.takeWhile Char.isDigit
  let cs2 := cs1.dropWhile Char.isDigit
  if ints.isEmpty then none
  -- the JSON grammar forbids leading zeros: int = 0 / digit1-9 *DIGIT
  else if 1 < ints.length && ints.headD '0' = '0' then none
  else
    let (hadDot, fracs, cs3) :=
      match cs2 with
      | '.' :: rest => (true, rest.takeWhile Char.isDigit, rest.dropWhile Char.isDigit)
      | _ => (false, ([] : List Char), cs2)
    if hadDot && fracs.isEmpty then none
    else
      let parseExp : Option (Bool × List Char × List Char) :=
        match cs3 with
        | 'e' :: rest | 'E' :: rest =>
          match rest with
          | '+' :: rest2 => some (false, rest2.takeWhile Char.isDigit, rest2.dropWhile Char.isDigit)
          | '-' :: rest2 => some (true, rest2.takeWhile Char.isDigit, rest2.dropWhile Char.isDigit)
          | _ => some (false, rest.takeWhile Char.isDigit, rest.dropWhile Char.isDigit)
        | _ => none
      let (expNeg, expDigits, cs4) :=
        match parseExp with
        | some (s, ds, rest) => (s, ds, rest)
        | none => (false, ([] : List Char), cs3)
      if parseExp.isSome && expDigits.isEmpty then none
      else
        -- The integer case is split out so that it stays free of `Rat`
        -- field arithmetic; it is extensionally the general formula with an
        -- empty fraction and no exponent.
        let scaled : Rat :=
          if !hadDot && parseExp.isNone then (digitsToNat ints : Rat)
          else
            let base : Rat :=
              (digitsToNat ints : Rat) +
                (digitsToNat fracs : Rat) / ((10 : Rat) ^ fracs.length)
            if expNeg then base / ((10 : Rat) ^ digitsToNat expDigits)
            else base * ((10 : Rat) ^ digitsToNat expDigits)
        some (if neg then -scaled else scaled, cs4)

mutual

/-- JSON value parser (models `JSON.parse`'s grammar), fuel-based. -/
def parseJsonValue : Nat → List Char → Option (Json × List Char)
  | 0, _ => none
  | fuel+1, cs0 =>
    let cs := cs0.dropWhile isJsonWs
    match cs with
    | 'n' :: 'u' :: 'l' :: 'l' :: rest => some (.null, rest)
    | 't' :: 'r' :: 'u' :: 'e' :: rest => some (.bool true, rest)
    | 'f' :: 'a' :: 'l' :: 's' :: 'e' :: rest => some (.bool false, rest)
    | '"' :: rest =>
      match parseJsonStringBody (rest.length + 1) rest [] with
      | some (s, rest2) => some (.str s, rest2)
      | none => none
    | '[' :: rest =>
      match rest.dropWhile isJsonWs with
      | ']' :: rest2 => some (.arr [], rest2)
      | _ => parseJsonElems fuel rest []
    | c :: rest =>
      if c = lbrace then
        match rest.dropWhile isJsonWs with
        | c2 :: rest2 =>
          if c2 = rbrace then some (.obj [], rest2)
          else parseJsonMembers fuel rest []
        | [] => none
      else
        match parseJsonNumber cs with
        | some (q, rest2) => some (.num q, rest2)
        | none => none
    | [] => none

/-- Elements of a JSON array after the opening bracket. -/
def parseJsonElems : Nat → List Char → List Json → Option (Json × List Char)
  | 0, _, _ => none
  | fuel+1, cs, acc =>
    match parseJsonValue fuel cs with
    | none => none
    | some (v, rest) =>
      match rest.dropWhile isJsonWs with
      | ',' :: rest2 => parseJsonElems fuel rest2 (v :: acc)
      | ']' :: rest2 => some (.arr ((v :: acc).reverse), rest2)
      | _ => none

/-- Members of a JSON object after the opening brace. -/
def parseJsonMembers : Nat → List Char → List (String × Json) →
    Option (Json × List Char)
  | 0, _, _ => none
  | fuel+1, cs, acc =>
    match cs.dropWhile isJsonWs with
    | '"' :: rest =>
      match parseJsonStringBody (rest.length + 1) rest [] with
      | none => none
      | some (key, rest2) =>
        match rest2.dropWhile isJsonWs with
        | ':' :: rest3 =>
          match parseJsonValue fuel rest3 with
          | none => none
          | some (v, rest4) =>
            match rest4.dropWhile isJsonWs with
            | ',' :: rest5 => parseJsonMembers fuel rest5 ((key, v) :: acc)
            | c :: rest5 =>
              if c = rbrace then some (.obj (((key, v) :: acc).reverse), rest5)
              else none
            | [] => none
        | _ => none
    | _ => none

end

/-- `JSON.parse`: parse one value, allow only trailing whitespace. -/
def jsonParse (s : String) : Option Json :=
  match parseJsonValue (s.length + 2) s.toList with
  | some (v, rest) => if (rest.dropWhile isJsonWs).isEmpty then some v else none
  | none => none

/-! ## Regex tier of the argument extractor (agentRunner.ts lines 236-268)

The three field regexes are modelled as direct scanners with the exact
semantics of the JS patterns:
`"key"\s*:\s*"((?:[^"\\]|\\.)*)"` and `"key"\s*:\s*(\d+)`.
The capture group `(?:[^"\\]|\\.)*` consumes either a non-quote non-backslash
character or a backslash followed by any character except a newline (JS `.`
does not match a line terminator), and must be followed by a closing quote. -/

/-- Greedy body of the capture group, up to the forced closing quote.
Returns the raw captured characters. A lone trailing backslash, a backslash
before a newline, or a missing closing quote make the whole attempt fail,
exactly as the JS regex fails to match at that start position. -/
def captureStringBody : Nat → List Char → List Char → Option (List Char)
  | 0, _, _ => none
  | _+1, [], _ => none
  | fuel+1, c :: rest, acc =>
    if c = '"' then some acc.reverse
    else if c = '\\' then
      match rest with
      | [] => none
      | c2 :: rest2 =>
        if c2 = '\n' then none
        else captureStringBody fuel rest2 (c2 :: '\\' :: acc)
    else captureStringBody fuel rest (c :: acc)

/-- After the quoted key literal: `\s*:\s*"` then the capture body. -/
def afterKeyStringValue (cs : List Char) : Option (List Char) :=
  match cs.dropWhile isJsWs with
  | ':' :: rest =>
    match rest.dropWhile isJsWs with
    | '"' :: rest2 => captureStringBody (rest2.length + 1) rest2 []
    | _ => none
  | _ => none

/-- After the quoted key literal: `\s*:\s*(\d+)`. -/
def afterKeyNumberValue (cs : List Char) : Option Nat :=
  match cs.dropWhile isJsWs with
  | ':' :: rest =>
    let rest2 := rest.dropWhile isJsWs
    let ds := rest2.takeWhile Char.isDigit
    if ds.isEmpty then none else some (digitsToNat ds)
  | _ => none

/-- First match of `"key"\s*:\s*"((?:[^"\\]|\\.)*)"` over the whole text: the
regex engine tries every start position left to right. -/
def matchStringField : Nat → List Char → List Char → Option (List Char)
  | 0, _, _ => none
  | fuel+1, cs, quotedKey =>
    match cs with
    | [] => none
    | _ :: rest =>
      match
        (if literalAt cs quotedKey then afterKeyStringValue (cs.drop quotedKey.length)
         else none) with
      | some cap => some cap
      | none => matchStringField fuel rest quotedKey

/-- First match of `"key"\s*:\s*(\d+)` over the whole text. -/
def matchNumberField : Nat → List Char → List Char → Option Nat
  | 0, _, _ => none
  | fuel+1, cs, quotedKey =>
    match cs with
    | [] => none
    | _ :: rest =>
      match
        (if literalAt cs quotedKey then afterKeyNumberValue (cs.drop quotedKey.length)
         else none) with
      | some n => some n
      | none => matchNumberField fuel rest quotedKey

/-- `JSON.parse('"' + capture + '"')`, falling back to the raw capture when
unescaping fails (agentRunner.ts lines 245-249). -/
def jsonUnescapeOrRaw (cap : List Char) : String :=
  match jsonParse (String.mk ('"' :: (cap ++ ['"']))) with
  | some (.str s) => s
  | _ => String.mk cap

/-- Tier 3 of `extractFunctionArguments`: the regex sweep building the result
record field by field (insertion order: thought, curiosity, reason). -/
def regexSweep (robust : List Char) : Json :=
  let thought := matchStringField (robust.length + 1) robust
    ("\"subconscious_thought\"".toList)
  let curiosity := matchNumberField (robust.length + 1) robust
    ("\"curiosity_level\"".toList)
  let reason := matchStringField (robust.length + 1) robust
    ("\"reason_for_quitting\"".toList)
  Json.obj
    ((match thought with
      | some cap => [("subconscious_thought", Json.str (jsonUnescapeOrRaw cap))]
      | none => []) ++
     (match curiosity with
      | some n => [("curiosity_level", Json.num (n : Rat))]
      | none => []) ++
     (match reason with
      | some cap => [("reason_for_quitting", Json.str (jsonUnescapeOrRaw cap))]
      | none => []))

/-- agentRunner.ts `extractFunctionArguments` (lines 194-269). `none` models a
`null`/`undefined` argument; an empty string is falsy in JS, hence also `{}`. -/
def extractFunctionArguments (text : Option String) : Json :=
  match text with
  | none => .obj []
  | some t =>
    if t.isEmpty then .obj []
    else
      let cleaned := trimChars t.toList
      -- Tier 1: largest brace-bounded substring, strict JSON parse.
      let tier1 : Option Json :=
        match cleaned.findIdx? (· = lbrace), lastIndexOfChar cleaned rbrace with
        | some fb, some lb =>
          if fb < lb then jsonParse (String.mk (sliceChars cleaned fb (lb + 1)))
          else none
        | _, _ => none
      match tier1 with
      | some v => v
      | none =>
        -- Tier 2: strip known pollution markers, then retry the brace parse.
        let robust := trimChars
          (dropSuffixLit
            (dropPrefixLit
              (removeAll
                (removeAll
                  (removeAll
                    (removeAll
                      (removeAll cleaned ("<TOOLCALL>").toList)
                      "</TOOLCALL>".toList)
                    "TOOLCALL>".toList)
                  "OLCALL>".toList)
                "CALL>".toList)
              "```json".toList)
            "```".toList)
        let tier2 : Option Json :=
          match robust.findIdx? (· = lbrace), lastIndexOfChar robust rbrace with
          | some fb, some lb => jsonParse (String.mk (sliceChars robust fb (lb + 1)))
          | _, _ => none
        match tier2 with
        | some v => v
        | none => regexSweep robust

/-! ## Tool inference fallback (agentRunner.ts lines 428-458) -/

/-- JS regex `\w` class. -/
def isWordChar (c : Char) : Bool := c.isAlphanum || c = '_'

/-- Does predicate `p` hold of some suffix (with the preceding character),
i.e. does the regex match at some start position? -/
def anySuffixWithPrev : List Char → Option Char → (Option Char → List Char → Bool) → Bool
  | [], prev, p => p prev []
  | c :: rest, prev, p => p prev (c :: rest) || anySuffixWithPrev rest (some c) p

/-- `/"lit"\b/`: the literal in quotes, followed by a word boundary. Since the
closing quote is a non-word character, the boundary requires the NEXT character
to be a word character. -/
def testQuotedLitBoundary (text litQuoted : List Char) : Bool :=
  anySuffixWithPrev text none (fun _ suf =>
    literalAt suf litQuoted &&
      (match suf.drop litQuoted.length with
       | c :: _ => isWordChar c
       | [] => false))

/-- `/\blit\b/` for a literal made of word characters. -/
def testWordBoundedLit (text lit : List Char) : Bool :=
  anySuffixWithPrev text none (fun prev suf =>
    (match prev with
     | some c => !isWordChar c
     | none => true) &&
    literalAt suf lit &&
      (match suf.drop lit.length with
       | c :: _ => !isWordChar c
       | [] => true))

/-- `/lit\b/i` for a word-character literal: case-insensitive, boundary only
after the match. -/
def testTrailingBoundaryCI (text lit : List Char) : Bool :=
  anySuffixWithPrev (text.map Char.toLower) none (fun _ suf =>
    literalAt suf lit &&
      (match suf.drop lit.length with
       | c :: _ => !isWordChar c
       | [] => true))

/-- agentRunner.ts lines 432-437: `looksLikeQuit` over the trimmed text. -/
def looksLikeQuit (text : List Char) : Bool :=
  testQuotedLitBoundary text ("\"quit_video\"".toList) ||
  testWordBoundedLit text ("quit_video".toList) ||
  containsSub text ("reason_for_quitting".toList) ||
  containsSub text ("_for_quitting".toList) ||
  testTrailingBoundaryCI text ("quit".toList)

/-- agentRunner.ts lines 439-443: `looksLikeKeep` over the trimmed text. -/
def looksLikeKeep (text : List Char) : Bool :=
  testQuotedLitBoundary text ("\"keep_playing\"".toList) ||
  testWordBoundedLit text ("keep_playing".toList) ||
  containsSub text ("subconscious_thought".toList) ||
  containsSub text ("curiosity_level".toList)

/-- agentRunner.ts lines 428-458: infer the tool from the free assistant text
when the provider emitted no tool call. -/
def inferToolFromText (assistantText : String) : AgentToolName :=
  let text := trimChars assistantText.toList
  if looksLikeQuit text then .quit_video
  else if looksLikeKeep text then .keep_playing
  else if decide (0 < text.length) &&
      (containsSub text ("boring".toList) ||
       containsSub text ("low stimulation".toList)) then .quit_video
  else .keep_playing

/-- The decision loop's tool resolution: the observed tool when the provider
emitted one, otherwise the keyword inference. Total, so the later
`Model did not call a tool` throw in `runAgent` is unreachable. -/
def resolveTool (observed : Option AgentToolName) (assistantText : String) :
    AgentToolName :=
  match observed with
  | some t => t
  | none => inferToolFromText assistantText

/-! ## Streaming tool-call client (src/src/openrouterClient.ts)

The client is modelled as a pure function from the per-attempt provider
responses (and the per-attempt `Math.random()` draws) to the ordered trace of
its observable effects: callback invocations and backoff sleeps. A 2xx body is
a list of read chunks, fed through the same buffer/line/JSON pipeline as the
source. Concurrency and real cancellation timing are outside the model; an
aborted fetch is represented as a network error with `isAbort = true`. -/

inductive ContentPart
  | text (t : String)
  | image_url (url : String)
deriving Repr, DecidableEq

inductive MessageContent
  | str (s : String)
  | parts (ps : List ContentPart)
deriving Repr, DecidableEq

structure ChatMessage where
  role : String
  content : MessageContent
deriving Repr, DecidableEq

/-- openrouterClient.ts `messagesIncludeImage` (lines 26-34). -/
def messagesIncludeImage (messages : List ChatMessage) : Bool :=
  messages.any (fun m =>
    match m.content with
    | .parts ps => ps.any (fun p =>
        match p with
        | .image_url _ => true
        | _ => false)
    | .str _ => false)

/-- One observable effect of `streamToolCalls`: a callback invocation or a
backoff sleep (in milliseconds). -/
inductive CbEvent
  | modelSelected (model : String) (attempt : Nat) (status : Option Nat)
  | rawEvent (j : Json)
  | textDelta (t : String)
  | functionCall (id : Option String) (name : String) (args : String)
  | finish (reason : String)
  | argumentsDone (args : String)
  | sleep (ms : Int)
deriving Repr

/-- JS truthiness of a possibly-absent JSON value. -/
def jsTruthy : Option Json → Bool
  | none => false
  | some .null => false
  | some (.bool b) => b
  | some (.num q) => decide (q ≠ 0)
  | some (.str s) => !s.isEmpty
  | some (.arr _) => true
  | some (.obj _) => true

/-- JS `a ?? b` on optional values. -/
def orOpt {α : Type} (a b : Option α) : Option α :=
  match a with
  | some x => some x
  | none => b

/-- An entry of the `partialToolCalls` record (openrouterClient.ts line 176). -/
structure PartialCall where
  id : Option String
  name : Option String
  args : String
  emitted : Bool
deriving Repr, DecidableEq

/-- `Record<number, PartialCall>` lookup (keys are JS numbers). -/
def lookupPartial (m : List (Rat × PartialCall)) (k : Rat) : Option PartialCall :=
  (m.find? (fun kv => kv.1 == k)).map (·.2)

def setPartial (m : List (Rat × PartialCall)) (k : Rat) (v : PartialCall) :
    List (Rat × PartialCall) :=
  if (m.find? (fun kv => kv.1 == k)).isSome then
    m.map (fun kv => if kv.1 == k then (k, v) else kv)
  else m ++ [(k, v)]

/-- Stand-in texts for the `TypeError`s the stream loop can throw. The exact
wording is engine-specific and semantically irrelevant downstream; what
matters for control flow is that, like every engine's TypeError wording for
these operations, none of them contains "aborted". -/
def toolCallsNotIterableMessage : String :=
  "tool_calls is not iterable"

def nullToolCallMessage : String :=
  "Cannot read properties of null (reading 'function')"

def toolCallsMapMessage : String :=
  "toolCalls.map is not a function"

/-- openrouterClient.ts lines 219-257: merge one streamed tool-call fragment
into the per-index table and emit the function-call callback when a (possibly
recovered) name is available. A `null` array element makes line 234's
`toolCall.function` access throw a TypeError — after the safe-navigated merge
of lines 220-232 has already updated the table; the thrown message is the
third component. -/
def processToolCall (st : List (Rat × PartialCall)) (tc : Json) :
    List (Rat × PartialCall) × List CbEvent × Option String :=
  let fnNameRaw : Option Json := (tc.lookup ("function")).bind (Json.lookup · "name")
  let idx : Rat :=
    match tc.lookup ("index") with
    | some (.num q) => q
    | _ => 0
  let chunkArgs : String :=
    match (tc.lookup ("function")).bind (Json.lookup · "arguments") with
    | some (.str s) => s
    | _ => ""
  let chunkName : Option String :=
    match fnNameRaw with
    | some (.str s) => some s
    | _ =>
      match tc.lookup ("name") with
      | some (.str s) => some s
      | _ => none
  let tcId : Option String :=
    match tc.lookup ("id") with
    | some (.str s) => some s
    | _ => none
  let prev : PartialCall := (lookupPartial st idx).getD ⟨none, none, "", false⟩
  let merged : PartialCall :=
    { id := orOpt tcId prev.id
      name := orOpt chunkName prev.name
      args := prev.args ++ chunkArgs
      emitted := prev.emitted }
  let st1 := setPartial st idx merged
  match tc with
  | .null => (st1, [], some nullToolCallMessage)
  | _ =>
    if jsTruthy fnNameRaw = false ∧ merged.emitted = false then
      -- name recovery from the accumulated argument fragment
      let recovered : Option String :=
        if (match merged.name with
            | some s => !s.isEmpty
            | none => false) then merged.name
        else
          match jsonParse merged.args with
          | some p =>
            match p.lookup ("name") with
            | some (.str s) => some s
            | _ =>
              match p.lookup ("tool") with
              | some (.str s) => some s
              | _ => merged.name
          | none => merged.name
      match recovered with
      | some rn =>
        if rn ≠ "" then
          (setPartial st1 idx { merged with emitted := true, name := some rn },
           [.functionCall merged.id rn merged.args], none)
        else (st1, [], none)
      | none => (st1, [], none)
    else
      -- fragment carried its own (truthy) name: emit with this chunk's fields
      match fnNameRaw with
      | some (.str s) =>
        if s ≠ "" then (st1, [.functionCall tcId s chunkArgs], none)
        else (st1, [], none)
      | _ => (st1, [], none)

/-- The `for (const toolCall of toolCalls)` loop of lines 219-257: process
fragments in order, stopping at the first thrown TypeError; events emitted
before the throw have already been raised. -/
def processToolCallsLoop :
    List Json → List (Rat × PartialCall) → List CbEvent →
    List (Rat × PartialCall) × List CbEvent × Option String
  | [], st, acc => (st, acc, none)
  | tc :: rest, st, acc =>
    let out := processToolCall st tc
    match out.2.2 with
    | some e => (out.1, acc ++ out.2.1, some e)
    | none => processToolCallsLoop rest out.1 (acc ++ out.2.1)

/-- `choices[0]` of an SSE event (openrouterClient.ts lines 203-206). -/
def eventChoice (parsed : Json) : Option Json :=
  match parsed.lookup ("choices") with
  | some (.arr (c :: _)) => some c
  | _ => none

/-- `choice.delta` when it is a non-null object (lines 208-211). -/
def eventDelta (parsed : Json) : Option Json :=
  match (eventChoice parsed).bind (Json.lookup · "delta") with
  | some (.obj fs) => some (.obj fs)
  | some (.arr xs) => some (.arr xs)
  | _ => none

/-- The text-delta callback raised for a truthy string `delta.content`
(lines 213-216). -/
def eventTextEvents (parsed : Json) : List CbEvent :=
  match (eventDelta parsed).bind (Json.lookup · "content") with
  | some (.str s) => if s ≠ "" then [.textDelta s] else []
  | _ => []

/-- The raw `delta.tool_calls` value, before `?? []` (line 218). -/
def eventToolCallsRaw (parsed : Json) : Option Json :=
  (eventDelta parsed).bind (Json.lookup · "tool_calls")

/-- What the `for...of` iterates: an array's elements, a string's characters
(each a one-character string), or nothing for a nullish value. -/
def eventToolCalls (parsed : Json) : List Json :=
  match eventToolCallsRaw parsed with
  | some (.arr xs) => xs
  | some (.str s) => s.data.map (fun c => Json.str (String.mk [c]))
  | _ => []

/-- `choice.finish_reason` when it is a string (line 259). -/
def eventFinishReason (parsed : Json) : Option String :=
  match (eventChoice parsed).bind (Json.lookup · "finish_reason") with
  | some (.str s) => some s
  | _ => none

/-- openrouterClient.ts lines 201-268: handle one parsed SSE event. Returns
the updated table, the updated finish reason, the callbacks raised, and the
message of a thrown TypeError when the event is malformed: `?? []` replaces
only a nullish `tool_calls`, so any other non-array, non-string value makes
the `for...of` of line 219 throw (a string iterates per character, but then
`.map` on line 266 throws if the finish reason is `tool_calls`). -/
def processEvent (parsed : Json) (pt : List (Rat × PartialCall))
    (finishSeen : Option String) :
    List (Rat × PartialCall) × Option String × List CbEvent × Option String :=
  match eventToolCallsRaw parsed with
  | some (.bool _) | some (.num _) | some (.obj _) =>
    -- truthy or falsy, a non-nullish non-iterable value reaches the for...of
    (pt, finishSeen, .rawEvent parsed :: eventTextEvents parsed,
      some toolCallsNotIterableMessage)
  | _ =>
    let looped := processToolCallsLoop (eventToolCalls parsed) pt []
    match looped.2.2 with
    | some e =>
      (looped.1, finishSeen,
        .rawEvent parsed :: (eventTextEvents parsed ++ looped.2.1), some e)
    | none =>
      let finishSeen1 : Option String :=
        match eventFinishReason parsed with
        | some r => if r ≠ "" then some r else finishSeen
        | none => finishSeen
      let finEvents : List CbEvent :=
        match eventFinishReason parsed with
        | some r => if r ≠ "" then [CbEvent.finish r] else []
        | none => []
      let argsOut : List CbEvent × Option String :=
        if eventFinishReason parsed = some ("tool_calls") then
          match eventToolCallsRaw parsed with
          | some (.str _) => ([], some toolCallsMapMessage)
          | _ =>
            ([.argumentsDone (String.join ((eventToolCalls parsed).map (fun t =>
              match (t.lookup ("function")).bind (Json.lookup · "arguments") with
              | some (.str s) => s
              | _ => "")))], none)
        else ([], none)
      (looped.1, finishSeen1,
        .rawEvent parsed ::
          (eventTextEvents parsed ++ looped.2.1 ++ finEvents ++ argsOut.1),
        argsOut.2)

/-- openrouterClient.ts lines 186-199: one complete line of the stream. -/
def processLine (pt : List (Rat × PartialCall)) (finishSeen : Option String)
    (line : List Char) :
    List (Rat × PartialCall) × Option String × List CbEvent × Option String :=
  let trimmed := trimChars line
  if literalAt trimmed ("data:".toList) = false then (pt, finishSeen, [], none)
  else
    let payload := trimChars (trimmed.drop 5)
    if payload.isEmpty || payload == ("[DONE]".toList) then
      (pt, finishSeen, [], none)
    else
      match jsonParse (String.mk payload) with
      | none => (pt, finishSeen, [], none)
      | some parsed => processEvent parsed pt finishSeen

/-- Split on a separator, keeping empty pieces (JS `String.split`). -/
def splitOnChar (sep : Char) : List Char → List Char → List (List Char)
  | [], cur => [cur.reverse]
  | c :: rest, cur =>
    if c = sep then cur.reverse :: splitOnChar sep rest []
    else splitOnChar sep rest (c :: cur)

/-- Stream-processing state across reads: the carried partial line, the
per-index tool-call table, and the last finish reason seen. -/
structure StreamProcState where
  buffer : List Char
  partialToolCalls : List (Rat × PartialCall)
  finishReasonSeen : Option String
deriving Repr

def initStreamProcState : StreamProcState := ⟨[], [], none⟩

/-- The complete lines of one read, processed in order until a throw. -/
def processLinesLoop :
    List (List Char) → List (Rat × PartialCall) → Option String → List CbEvent →
    List (Rat × PartialCall) × Option String × List CbEvent × Option String
  | [], pt, fin, acc => (pt, fin, acc, none)
  | l :: rest, pt, fin, acc =>
    let out := processLine pt fin l
    match out.2.2.2 with
    | some e => (out.1, out.2.1, acc ++ out.2.2.1, some e)
    | none => processLinesLoop rest out.1 out.2.1 (acc ++ out.2.2.1)

/-- openrouterClient.ts lines 178-270: one `reader.read()` result. The decoded
text is appended to the carried buffer, complete lines are processed, and the
trailing partial line is carried to the next read; a TypeError thrown while
processing a line escapes the whole read. -/
def processRead (st : StreamProcState) (chunk : String) :
    StreamProcState × List CbEvent × Option String :=
  let buf := st.buffer ++ chunk.toList
  let parts := splitOnChar '\n' buf []
  let buffer' := (parts.getLast?).getD []
  let lines := parts.dropLast
  let looped := processLinesLoop lines st.partialToolCalls st.finishReasonSeen []
  (⟨buffer', looped.1, looped.2.1⟩, looped.2.2.1, looped.2.2.2)

/-- The reads of one 2xx body, consumed until the stream ends or a processing
throw escapes the read loop. -/
def processChunksLoop :
    List String → StreamProcState → List CbEvent →
    StreamProcState × List CbEvent × Option String
  | [], st, acc => (st, acc, none)
  | c :: rest, st, acc =>
    let out := processRead st c
    match out.2.2 with
    | some e => (out.1, acc ++ out.2.1, some e)
    | none => processChunksLoop rest out.1 (acc ++ out.2.1)

/-- The whole 2xx body as a sequence of read chunks. Any text left in the
buffer when the stream closes is discarded, as in the source; the third
component is the message of a throw that escaped the stream loop (caught by
the attempt loop's catch block). -/
def processChunks (chunks : List String) :
    StreamProcState × List CbEvent × Option String :=
  processChunksLoop chunks initStreamProcState []

/-! ### Trace projections -/

def sleepEvents (tr : List CbEvent) : List Int :=
  tr.filterMap (fun e =>
    match e with
    | .sleep d => some d
    | _ => none)

def argsDoneEvents (tr : List CbEvent) : List String :=
  tr.filterMap (fun e =>
    match e with
    | .argumentsDone s => some s
    | _ => none)

def functionCallEvents (tr : List CbEvent) : List (Option String × String × String) :=
  tr.filterMap (fun e =>
    match e with
    | .functionCall i n a => some (i, n, a)
    | _ => none)

def modelSelections (tr : List CbEvent) : List (String × Nat × Option Nat) :=
  tr.filterMap (fun e =>
    match e with
    | .modelSelected m a s => some (m, a, s)
    | _ => none)

/-! ### Retry / fallback loop -/

structure ClientConfig where
  models : List String
  maxAttempts : Nat
deriving Repr, DecidableEq

/-- Constructor logic (openrouterClient.ts lines 75-83): candidate list is the
primary model followed by the fallbacks, empty names dropped
(`.filter(Boolean)`); `maxAttempts` defaults to the list length. -/
def mkClientConfig (model : String) (fallbackModels : List String)
    (maxAttempts : Option Nat) : ClientConfig :=
  let models := (model :: fallbackModels).filter (fun s => !s.isEmpty)
  ⟨models, maxAttempts.getD models.length⟩

/-- `Math.min(this.maxAttempts, this.models.length)` from the loop guard. -/
def ClientConfig.attemptBound (cfg : ClientConfig) : Nat :=
  min cfg.maxAttempts cfg.models.length

/-- What the provider does on one attempt: an HTTP response (2xx responses
carry the body's read chunks, non-2xx the error body text), or a thrown
fetch/stream error (`isAbort` marks a cancellation). -/
inductive AttemptResponse
  | resp (status : Nat) (statusText : String) (body : String) (chunks : List String)
  | netError (message : String) (isAbort : Bool)

/-- `Math.round` on a non-negative rational. -/
def jsRound (q : Rat) : Int := ⌊q + 1/2⌋

/-- Lines 156 and 290: `Math.round(baseDelay * 2^attempt * (0.8 + r * 0.4))`
with `baseDelay = 1000` and `r` the `Math.random()` draw in `[0, 1)`. -/
def backoffDelay (attempt : Nat) (r : Rat) : Int :=
  jsRound ((1000 : Rat) * 2 ^ attempt * (4/5 + r * (2/5)))

/-- Lines 130-139: pull `error.message` out of the error body, when it parses
as JSON and that field is a string. -/
def errorMessageOfBody (body : String) : Option String :=
  match jsonParse body with
  | some parsed =>
    match parsed.lookup ("error") with
    | some err =>
      match err.lookup ("message") with
      | some (.str m) => some m
      | _ => none
    | none => none
  | none => none

def httpErrorMessage (status : Nat) (statusText body : String) : String :=
  "OpenRouter request failed: " ++ toString status ++ " " ++ statusText ++
    " - " ++ body

def imageUnsupportedMessage (model errMsg : String) : String :=
  "OpenRouter model \"" ++ model ++ "\" does not support image input." ++
    "\nOpenRouter error: " ++ errMsg

def wrappedAttemptError (model msg : String) : String :=
  "OpenRouter request failed for model \"" ++ model ++ "\": " ++ msg

/-- Line 142: status 404, an image part in the outgoing messages, and an error
message naming the image-input rejection (case-insensitive containment). -/
def imageRejected (status : Nat) (hasImage : Bool)
    (errorMessage : Option String) : Bool :=
  decide (status = 404) && hasImage &&
    (match errorMessage with
     | some m => containsSub (m.toList.map Char.toLower) ("support image input".toList)
     | none => false)

/-- The catch block (lines 274-293) for a throw raised inside the `try`.
Lines 276-279 first classify the error: errors thrown by the client's own code
are plain `Error`s (never named `AbortError`), so for them the abort test
reduces to `err.message.toLowerCase().includes("aborted")`; an abort
propagates immediately and unwrapped, with no further callback. Otherwise the
catch emits the model-selected diagnostic with undefined status, rethrows
wrapped on the last attempt, and else sleeps the jittered backoff and
continues with `next` (the outcome of the remaining attempts). -/
def catchRetry (cfg : ClientConfig) (attempt : Nat) (model errMsg : String)
    (r : Rat) (next : List CbEvent × Except String Unit) :
    List CbEvent × Except String Unit :=
  if containsSub (errMsg.toList.map Char.toLower) ("aborted".toList) then
    ([], .error errMsg)
  else
    let evSel : List CbEvent := [.modelSelected model (attempt + 1) none]
    if cfg.attemptBound ≤ attempt + 1 then
      (evSel, .error (wrappedAttemptError model errMsg))
    else
      (evSel ++ [.sleep (backoffDelay attempt r)] ++ next.1, next.2)

/-- The attempt loop of `streamToolCalls` (lines 105-298). `fuel` is the
number of remaining attempts, `attemptBound - attempt`. Every `throw` inside
the `try` block lands in the catch block (`catchRetry`), including the
404-image throw of line 143 and the last-attempt throw of line 153. -/
def streamAttempts (cfg : ClientConfig) (hasImage : Bool)
    (responses : Nat → AttemptResponse) (rands : Nat → Rat) :
    Nat → Nat → List CbEvent × Except String Unit
  | 0, _ => ([], .error ("OpenRouter: all models failed or were exhausted"))
  | fuel+1, attempt =>
    let model := cfg.models.getD attempt ("")
    let ev0 : List CbEvent := [.modelSelected model (attempt + 1) none]
    let next := fun _ : Unit =>
      streamAttempts cfg hasImage responses rands fuel (attempt + 1)
    match responses attempt with
    | .netError msg isAbort =>
      -- lines 274-293: a thrown fetch error; the flag covers the AbortError
      -- name and the aborted signal, catchRetry re-tests the message
      if isAbort then (ev0, .error msg)
      else
        let out := catchRetry cfg attempt model msg (rands attempt) (next ())
        (ev0 ++ out.1, out.2)
    | .resp status statusText body chunks =>
      if 200 ≤ status ∧ status ≤ 299 then
        -- lines 165-273: consume the SSE stream; a TypeError thrown while
        -- processing a malformed event lands in the catch block
        let streamed := processChunks chunks
        match streamed.2.2 with
        | none =>
          (ev0 ++ [.modelSelected model (attempt + 1) (some status)] ++
            streamed.2.1, .ok ())
        | some e =>
          let out := catchRetry cfg attempt model e (rands attempt) (next ())
          (ev0 ++ [.modelSelected model (attempt + 1) (some status)] ++
            streamed.2.1 ++ out.1, out.2)
      else
        let errorMessage := errorMessageOfBody body
        if imageRejected status hasImage errorMessage then
          -- line 143's throw, caught by the catch block
          let out := catchRetry cfg attempt model
            (imageUnsupportedMessage model (errorMessage.getD ("")))
            (rands attempt) (next ())
          (ev0 ++ out.1, out.2)
        else if status = 429 ∨ 500 ≤ status then
          if cfg.attemptBound ≤ attempt + 1 then
            -- line 153's throw, caught by the catch block
            let out := catchRetry cfg attempt model
              (httpErrorMessage status statusText body) (rands attempt) (next ())
            (ev0 ++ [.modelSelected model (attempt + 1) (some status)] ++ out.1,
              out.2)
          else
            -- lines 156-158: backoff inside the try, then the next model
            let out := next ()
            (ev0 ++ [.modelSelected model (attempt + 1) (some status)] ++
              [.sleep (backoffDelay attempt (rands attempt))] ++ out.1, out.2)
        else
          -- line 162's throw, caught by the catch block
          let out := catchRetry cfg attempt model
            (httpErrorMessage status statusText body) (rands attempt) (next ())
          (ev0 ++ out.1, out.2)

/-- openrouterClient.ts `streamToolCalls` (lines 100-298) as a pure function
of the per-attempt provider responses and the per-attempt random draws. -/
def streamToolCalls (cfg : ClientConfig) (messages : List ChatMessage)
    (responses : Nat → AttemptResponse) (rands : Nat → Rat) :
    List CbEvent × Except String Unit :=
  streamAttempts cfg (messagesIncludeImage messages) responses rands
    cfg.attemptBound 0


/-- The claim-side per-result watch time: end of the segment at the stop index
when set, end of the last segment (0 when there are no segments) otherwise. -/
def claimWatchSeconds (segments : List Segment) (r : AgentRunResult) : Rat :=
  match r.stopSegmentIndex with
  | some i => (segments.getD i.toNat default).«end»
  | none =>
    if segments.length = 0 then 0
    else (segments.getD (segments.length - 1) default).«end»

/-! ## Concrete streams used by the client claims -/

/-- First SSE read: a tool-call fragment at index 0 carrying the name
`keep_playing` and the argument prefix. -/
def sseChunk1 : String :=
  "data: \x7b\"choices\":[\x7b\"delta\":\x7b\"tool_calls\":[\x7b\"index\":0,\"id\":\"c1\",\"function\":\x7b\"name\":\"keep_playing\",\"arguments\":\"\x7b\\\"a\\\":\"\x7d\x7d]\x7d\x7d]\x7d\n"

/-- Second SSE read: the rest of the arguments for the same index, together
with the `tool_calls` finish reason. -/
def sseChunk2 : String :=
  "data: \x7b\"choices\":[\x7b\"delta\":\x7b\"tool_calls\":[\x7b\"index\":0,\"function\":\x7b\"arguments\":\"1\x7d\"\x7d\x7d]\x7d,\"finish_reason\":\"tool_calls\"\x7d]\x7d\n"

/-- The 404 error body from the repository's own client test. -/
def imgBody404 : String :=
  "\x7b\"error\":\x7b\"message\":\"No endpoints found that support image input\",\"code\":404\x7d\x7d"

/-- An outgoing message list containing an image part. -/
def imgMessages : List ChatMessage :=
  [⟨"user", .parts [.image_url ("data:image/jpeg;base64,AA==")]⟩]

end VideoAnalyzer

namespace VideoAnalyzer

/-! ## Helper lemmas -/

/-- For an in-range stop index the clamp in `getWatchSecondsForStopIndex` is the
identity, so the watch time is the end of exactly that segment. -/
theorem getWatchSeconds_of_inRange (segments : List Segment) (i : Int)
    (h0 : 0 ≤ i) (h1 : i.toNat < segments.length) :
    getWatchSecondsForStopIndex segments (some i) =
      (segments.getD i.toNat default).«end» := by
  have hlen : ¬ segments.length = 0 := by omega
  have hidx : (max 0 (min i ((segments.length : Int) - 1))).toNat = i.toNat := by
    omega
  simp only [getWatchSecondsForStopIndex, if_neg hlen, hidx]

theorem getWatchSeconds_eq_claim (segments : List Segment) (r : AgentRunResult)
    (hvalid : ∀ i : Int, r.stopSegmentIndex = some i →
      0 ≤ i ∧ i.toNat < segments.length) :
    getWatchSecondsForStopIndex segments r.stopSegmentIndex =
      claimWatchSeconds segments r := by
  cases hstop : r.stopSegmentIndex with
  | none =>
    by_cases hlen : segments.length = 0 <;>
      simp [getWatchSecondsForStopIndex, getVideoDurationSecondsFromSegments,
        claimWatchSeconds, hstop, hlen]
  | some i =>
    obtain ⟨h0, h1⟩ := hvalid i hstop
    rw [getWatchSeconds_of_inRange segments i h0 h1]
    simp [claimWatchSeconds, hstop]

/-! ## Claim theorems: double-quit rule -/

/-- C1: on a state with `firstQuitSeen = false`, `applyDoubleQuitRule` with
`quit_video` returns `decision = continue` and `coercedTool = keep_playing`,
and the returned state sets `firstQuitSeen := true` and `status := probation`
while leaving every other field unchanged. -/
theorem applyDoubleQuitRule_first_quit (state : AgentState) (i : Int)
    (h : state.firstQuitSeen = false) :
    applyDoubleQuitRule state .quit_video i =
      { coercedTool := .keep_playing
        decision := .«continue»
        state := { state with firstQuitSeen := true, status := .probation } } := by
  simp [applyDoubleQuitRule, h]

theorem applyDoubleQuitRule_first_quit_witness :
    initialAgentState.firstQuitSeen = false ∧
    applyDoubleQuitRule initialAgentState .quit_video 4 =
      { coercedTool := .keep_playing
        decision := .«continue»
        state := { initialAgentState with
                   firstQuitSeen := true
                   status := .probation } } :=
  ⟨rfl, applyDoubleQuitRule_first_quit initialAgentState 4 rfl⟩

/-- C2: on a state with `firstQuitSeen = true`, `applyDoubleQuitRule` with
`quit_video` returns `decision = stop` and `coercedTool = quit_video`, and the
returned state has `stopped = true`, `stopSegmentIndex = some i` and
`status = stopped`. -/
theorem applyDoubleQuitRule_second_quit (state : AgentState) (i : Int)
    (h : state.firstQuitSeen = true) :
    applyDoubleQuitRule state .quit_video i =
      { coercedTool := .quit_video
        decision := .stop
        state := { state with
                   stopped := true
                   stopSegmentIndex := some i
                   status := .stopped } } := by
  simp [applyDoubleQuitRule, h]

theorem applyDoubleQuitRule_second_quit_witness :
    ({ initialAgentState with firstQuitSeen := true } : AgentState).firstQuitSeen
        = true ∧
    applyDoubleQuitRule { initialAgentState with firstQuitSeen := true }
        .quit_video 3 =
      { coercedTool := .quit_video
        decision := .stop
        state := { initialAgentState with
                   firstQuitSeen := true
                   stopped := true
                   stopSegmentIndex := some 3
                   status := .stopped } } :=
  ⟨rfl, applyDoubleQuitRule_second_quit
    { initialAgentState with firstQuitSeen := true } 3 rfl⟩

/-- C3: `applyDoubleQuitRule` with `keep_playing` returns
`decision = continue`, `coercedTool = keep_playing` and the state entirely
unchanged, for every state and segment index. -/
theorem applyDoubleQuitRule_keep_playing (state : AgentState) (i : Int) :
    applyDoubleQuitRule state .keep_playing i =
      { coercedTool := .keep_playing
        decision := .«continue»
        state := state } := rfl

/-! ## Claim theorems: simulation summary -/

/-- C4: `summarizeSimulation` computes, per agent (in result order), the watch
seconds as the end of the segment at the stop index (end of the last segment
when no stop index), the video duration as the last segment's end (0 when
empty), and the average as the arithmetic mean of the per-agent watch seconds
(0 when there are no agents). Stop indices are assumed in range, per the
repository invariant that a set `stopSegmentIndex` is a valid segment index. -/
theorem summarizeSimulation_spec (segments : List Segment)
    (results : List AgentRunResult)
    (hvalid : ∀ r ∈ results, ∀ i : Int, r.stopSegmentIndex = some i →
      0 ≤ i ∧ i.toNat < segments.length) :
    summarizeSimulation segments results =
      { videoDurationSeconds :=
          if segments.length = 0 then 0
          else (segments.getD (segments.length - 1) default).«end»
        averageWatchSeconds :=
          if results.length = 0 then 0
          else (results.map (claimWatchSeconds segments)).sum / (results.length : Rat)
        perAgent := results.map (fun r =>
          ⟨r.agentId, r.stopSegmentIndex, claimWatchSeconds segments r⟩) } := by
  have hper : results.map (fun r =>
      AgentWatchSummary.mk r.agentId r.stopSegmentIndex
        (getWatchSecondsForStopIndex segments r.stopSegmentIndex)) =
      results.map (fun r =>
        ⟨r.agentId, r.stopSegmentIndex, claimWatchSeconds segments r⟩) := by
    apply List.map_congr_left
    intro r hr
    rw [getWatchSeconds_eq_claim segments r (hvalid r hr)]
  unfold summarizeSimulation
  simp only [SimulationSummary.mk.injEq]
  refine ⟨rfl, ?_, hper⟩
  rw [hper, List.length_map]
  by_cases hlen : results.length = 0
  · simp [hlen]
  · rw [if_neg hlen, if_neg hlen, List.sum_eq_foldl, List.foldl_map,
      List.foldl_map]

theorem summarizeSimulation_spec_witness :
    (∀ r ∈ ([⟨"agent-1", some 0⟩, ⟨"agent-2", some 2⟩, ⟨"agent-3", none⟩] :
        List AgentRunResult), ∀ i : Int, r.stopSegmentIndex = some i →
      0 ≤ i ∧ i.toNat <
        ([⟨0, 0, 1, "/tmp/a.jpg", ""⟩, ⟨1, 1, 2, "/tmp/b.jpg", ""⟩,
          ⟨2, 2, 13/4, "/tmp/c.jpg", ""⟩] : List Segment).length) ∧
    summarizeSimulation
      [⟨0, 0, 1, "/tmp/a.jpg", ""⟩, ⟨1, 1, 2, "/tmp/b.jpg", ""⟩,
       ⟨2, 2, 13/4, "/tmp/c.jpg", ""⟩]
      [⟨"agent-1", some 0⟩, ⟨"agent-2", some 2⟩, ⟨"agent-3", none⟩] =
      { videoDurationSeconds := 13/4
        averageWatchSeconds := (1 + 13/4 + 13/4) / 3
        perAgent := [⟨"agent-1", some 0, 1⟩, ⟨"agent-2", some 2, 13/4⟩,
                     ⟨"agent-3", none, 13/4⟩] } ∧
    summarizeSimulation [] [] = ⟨0, 0, []⟩ := by
  have hvalid : ∀ r ∈ ([⟨"agent-1", some 0⟩, ⟨"agent-2", some 2⟩,
      ⟨"agent-3", none⟩] : List AgentRunResult), ∀ i : Int,
      r.stopSegmentIndex = some i →
      0 ≤ i ∧ i.toNat <
        ([⟨0, 0, 1, "/tmp/a.jpg", ""⟩, ⟨1, 1, 2, "/tmp/b.jpg", ""⟩,
          ⟨2, 2, 13/4, "/tmp/c.jpg", ""⟩] : List Segment).length := by
    intro r hr i hi
    fin_cases hr <;> simp_all <;> omega
  refine ⟨hvalid, ?_, ?_⟩
  · rw [summarizeSimulation_spec _ _ hvalid]
    simp [claimWatchSeconds]
    norm_num
  · rw [summarizeSimulation_spec [] [] (by simp)]
    simp

/-- C10: `getWatchSecondsForStopIndex` is total: on an empty segment list it
returns 0 for every stop index, and on a non-empty list any stop index is
clamped into `[0, length-1]` and the end of the clamped segment is returned,
so no out-of-bounds access can occur. -/
theorem getWatchSecondsForStopIndex_total :
    (∀ stop, getWatchSecondsForStopIndex [] stop = 0) ∧
    (∀ (segments : List Segment) (i : Int), segments ≠ [] →
      ∃ (j : Nat) (hj : j < segments.length),
        (j : Int) = max 0 (min i ((segments.length : Int) - 1)) ∧
        getWatchSecondsForStopIndex segments (some i) =
          (segments.get ⟨j, hj⟩).«end») := by
  constructor
  · intro stop
    simp [getWatchSecondsForStopIndex]
  · intro segments i hne
    have hlen : 0 < segments.length := List.length_pos.mpr hne
    refine ⟨(max 0 (min i ((segments.length : Int) - 1))).toNat, by omega, by omega, ?_⟩
    have hlen0 : ¬ segments.length = 0 := by omega
    simp only [getWatchSecondsForStopIndex, if_neg hlen0]
    rw [List.getD_eq_getElem _ _ (by omega)]
    simp [List.get_eq_getElem]

theorem getWatchSecondsForStopIndex_total_witness :
    ([(⟨0, 0, 1, "x", ""⟩ : Segment)] ≠ []) ∧
    (∃ (j : Nat) (hj : j < ([(⟨0, 0, 1, "x", ""⟩ : Segment)]).length),
      (j : Int) = max 0 (min (-5 : Int) ((([(⟨0, 0, 1, "x", ""⟩ : Segment)]).length : Int) - 1)) ∧
      getWatchSecondsForStopIndex [(⟨0, 0, 1, "x", ""⟩ : Segment)] (some (-5)) =
        (([(⟨0, 0, 1, "x", ""⟩ : Segment)]).get ⟨j, hj⟩).«end») :=
  ⟨by simp, getWatchSecondsForStopIndex_total.2 [⟨0, 0, 1, "x", ""⟩] (-5) (by simp)⟩

end VideoAnalyzer



namespace VideoAnalyzer

/-- C8: on the malformed text `"subconscious_thought": "I see "quotes" here",
"curiosity_level": 7` (unescaped inner quote, no brace-bounded JSON object),
`extractFunctionArguments` falls through to the regex tier and returns a
record whose `subconscious_thought` is the non-empty string "I see " and whose
`curiosity_level` is 7; being a total function, it cannot throw. -/
theorem extractFunctionArguments_malformed_recovery :
    extractFunctionArguments
        (some ("\"subconscious_thought\": \"I see \"quotes\" here\", \"curiosity_level\": 7")) =
      Json.obj [("subconscious_thought", Json.str ("I see ")),
                ("curiosity_level", Json.num 7)] ∧
    (extractFunctionArguments
        (some ("\"subconscious_thought\": \"I see \"quotes\" here\", \"curiosity_level\": 7"))).lookup
        "subconscious_thought" = some (Json.str ("I see ")) ∧
    ("I see " : String) ≠ "" ∧
    (extractFunctionArguments
        (some ("\"subconscious_thought\": \"I see \"quotes\" here\", \"curiosity_level\": 7"))).lookup
        "curiosity_level" = some (Json.num 7) :=
  ⟨rfl, rfl, by decide, rfl⟩

/-- C9: when the provider emitted no tool call and none of the keyword
heuristics over the trimmed assistant text fire (no quit-related tokens, no
keep-related tokens, no negative-sentiment words), the loop's tool resolution
defaults to `keep_playing`, which yields a `continue` decision for the segment
on every state. -/
theorem resolveTool_default_keep_playing (text : String)
    (hq : looksLikeQuit (trimChars text.toList) = false)
    (hk : looksLikeKeep (trimChars text.toList) = false)
    (hs : (containsSub (trimChars text.toList) ("boring".toList) ||
           containsSub (trimChars text.toList) ("low stimulation".toList)) = false) :
    resolveTool none text = .keep_playing ∧
    ∀ (st : AgentState) (i : Int),
      (applyDoubleQuitRule st (resolveTool none text) i).decision = .«continue» := by
  have htool : resolveTool none text = .keep_playing := by
    rw [Bool.or_eq_false_iff] at hs
    have hq' : looksLikeQuit (trimChars text.data) = false := hq
    have hk' : looksLikeKeep (trimChars text.data) = false := hk
    have hb' : containsSub (trimChars text.data)
        ['b', 'o', 'r', 'i', 'n', 'g'] = false := hs.1
    have hl' : containsSub (trimChars text.data)
        ['l', 'o', 'w', ' ', 's', 't', 'i', 'm', 'u', 'l', 'a', 't', 'i', 'o', 'n']
        = false := hs.2
    simp [resolveTool, inferToolFromText, hq', hk', hb', hl']
  refine ⟨htool, ?_⟩
  intro st i
  rw [htool]
  simp [applyDoubleQuitRule]

theorem resolveTool_default_keep_playing_witness :
    looksLikeQuit (trimChars ("hello".toList)) = false ∧
    looksLikeKeep (trimChars ("hello".toList)) = false ∧
    (containsSub (trimChars ("hello".toList)) ("boring".toList) ||
     containsSub (trimChars ("hello".toList)) ("low stimulation".toList)) = false ∧
    resolveTool none ("hello") = .keep_playing ∧
    (applyDoubleQuitRule initialAgentState (resolveTool none ("hello")) 0).decision =
      .«continue» :=
  ⟨rfl, rfl, rfl,
    (resolveTool_default_keep_playing ("hello") rfl rfl rfl).1,
    (resolveTool_default_keep_playing ("hello") rfl rfl rfl).2 initialAgentState 0⟩

end VideoAnalyzer



namespace VideoAnalyzer

/-! ## Trace-shape lemmas for the streaming client -/

theorem sleepEvents_append (a b : List CbEvent) :
    sleepEvents (a ++ b) = sleepEvents a ++ sleepEvents b :=
  List.filterMap_append a b _

theorem argsDoneEvents_append (a b : List CbEvent) :
    argsDoneEvents (a ++ b) = argsDoneEvents a ++ argsDoneEvents b :=
  List.filterMap_append a b _

/-- A tool-call fragment emits at most one callback, and it is a
function-call callback. -/
theorem processToolCall_snd (st : List (Rat × PartialCall)) (tc : Json) :
    (processToolCall st tc).2.1 = [] ∨
    ∃ i n a, (processToolCall st tc).2.1 = [CbEvent.functionCall i n a] := by
  unfold processToolCall
  dsimp only
  repeat
    first
    | exact Or.inl rfl
    | exact Or.inr ⟨_, _, _, rfl⟩
    | split

/-- Whether a fragment throws depends only on the fragment itself (a `null`
element), not on the accumulated table. -/
theorem processToolCall_thrown (st : List (Rat × PartialCall)) (tc : Json) :
    (processToolCall st tc).2.2 =
      (match tc with
       | .null => some nullToolCallMessage
       | _ => none) := by
  unfold processToolCall
  dsimp only
  cases tc <;>
    (dsimp only
     repeat
       first
       | rfl
       | split)

theorem sleepEvents_processToolCall (st : List (Rat × PartialCall)) (tc : Json) :
    sleepEvents (processToolCall st tc).2.1 = [] := by
  rcases processToolCall_snd st tc with h | ⟨i, n, a, h⟩ <;>
    simp [h, sleepEvents]

theorem argsDoneEvents_processToolCall (st : List (Rat × PartialCall)) (tc : Json) :
    argsDoneEvents (processToolCall st tc).2.1 = [] := by
  rcases processToolCall_snd st tc with h | ⟨i, n, a, h⟩ <;>
    simp [h, argsDoneEvents]

theorem sleepEvents_toolCallsLoop (tcs : List Json)
    (st : List (Rat × PartialCall)) (acc : List CbEvent) :
    sleepEvents (processToolCallsLoop tcs st acc).2.1 = sleepEvents acc := by
  induction tcs generalizing st acc with
  | nil => rfl
  | cons tc rest ih =>
    simp only [processToolCallsLoop]
    cases hthrow : (processToolCall st tc).2.2 with
    | none =>
      rw [ih, sleepEvents_append, sleepEvents_processToolCall, List.append_nil]
    | some e =>
      dsimp only
      rw [sleepEvents_append, sleepEvents_processToolCall, List.append_nil]

theorem argsDoneEvents_toolCallsLoop (tcs : List Json)
    (st : List (Rat × PartialCall)) (acc : List CbEvent) :
    argsDoneEvents (processToolCallsLoop tcs st acc).2.1 = argsDoneEvents acc := by
  induction tcs generalizing st acc with
  | nil => rfl
  | cons tc rest ih =>
    simp only [processToolCallsLoop]
    cases hthrow : (processToolCall st tc).2.2 with
    | none =>
      rw [ih, argsDoneEvents_append, argsDoneEvents_processToolCall,
        List.append_nil]
    | some e =>
      dsimp only
      rw [argsDoneEvents_append, argsDoneEvents_processToolCall, List.append_nil]

/-- Whether (and where) the fragment loop throws depends only on the
fragments, not on the table or the accumulated events. -/
theorem toolCallsLoop_thrown_indep (tcs : List Json)
    (st st' : List (Rat × PartialCall)) (acc acc' : List CbEvent) :
    (processToolCallsLoop tcs st acc).2.2 =
    (processToolCallsLoop tcs st' acc').2.2 := by
  induction tcs generalizing st st' acc acc' with
  | nil => rfl
  | cons tc rest ih =>
    simp only [processToolCallsLoop]
    rw [processToolCall_thrown st tc, processToolCall_thrown st' tc]
    cases tc <;> simp only [] <;> first | rfl | exact ih _ _ _ _

theorem sleepEvents_eventTextEvents (parsed : Json) :
    sleepEvents (eventTextEvents parsed) = [] := by
  unfold eventTextEvents
  repeat
    first
    | rfl
    | split

theorem argsDoneEvents_eventTextEvents (parsed : Json) :
    argsDoneEvents (eventTextEvents parsed) = [] := by
  unfold eventTextEvents
  repeat
    first
    | rfl
    | split

theorem sleepEvents_processEvent (parsed : Json)
    (pt : List (Rat × PartialCall)) (fin : Option String) :
    sleepEvents (processEvent parsed pt fin).2.2.1 = [] := by
  have hcons : ∀ (j : Json) (l : List CbEvent),
      sleepEvents (CbEvent.rawEvent j :: l) = sleepEvents l := fun _ _ => rfl
  unfold processEvent
  split
  any_goals (dsimp only; rw [hcons, sleepEvents_eventTextEvents])
  dsimp only
  split
  · dsimp only
    rw [hcons, sleepEvents_append, sleepEvents_eventTextEvents,
      sleepEvents_toolCallsLoop]
    rfl
  · dsimp only
    rw [hcons, sleepEvents_append, sleepEvents_append, sleepEvents_append,
      sleepEvents_eventTextEvents, sleepEvents_toolCallsLoop]
    repeat
      first
      | rfl
      | split

/-- The arguments-complete payload raised for a finish event is a function of
that event alone: it does not depend on the tool-call table accumulated from
earlier events, nor on the finish reason previously seen. -/
theorem argsDoneEvents_processEvent_indep (parsed : Json)
    (pt pt' : List (Rat × PartialCall)) (fin fin' : Option String) :
    argsDoneEvents (processEvent parsed pt fin).2.2.1 =
    argsDoneEvents (processEvent parsed pt' fin').2.2.1 := by
  have hcons : ∀ (j : Json) (l : List CbEvent),
      argsDoneEvents (CbEvent.rawEvent j :: l) = argsDoneEvents l :=
    fun _ _ => rfl
  have hthr := toolCallsLoop_thrown_indep (eventToolCalls parsed) pt pt' [] []
  unfold processEvent
  rcases htc : eventToolCallsRaw parsed with _ | j
  · simp only [htc]
    cases hl : (processToolCallsLoop (eventToolCalls parsed) pt []).2.2 with
    | some e =>
      have hl' : (processToolCallsLoop (eventToolCalls parsed) pt' []).2.2 =
          some e := by rw [← hthr, hl]
      simp only [hl, hl']
      rw [hcons, hcons, argsDoneEvents_append, argsDoneEvents_append,
        argsDoneEvents_toolCallsLoop, argsDoneEvents_toolCallsLoop]
    | none =>
      have hl' : (processToolCallsLoop (eventToolCalls parsed) pt' []).2.2 =
          none := by rw [← hthr, hl]
      simp only [hl, hl']
      rw [hcons, hcons, argsDoneEvents_append, argsDoneEvents_append,
        argsDoneEvents_append, argsDoneEvents_append, argsDoneEvents_append,
        argsDoneEvents_append, argsDoneEvents_toolCallsLoop,
        argsDoneEvents_toolCallsLoop]
  · cases j <;> simp only [htc] <;>
      first
      | rfl
      | (cases hl : (processToolCallsLoop (eventToolCalls parsed) pt []).2.2 with
         | some e =>
           have hl' : (processToolCallsLoop (eventToolCalls parsed) pt' []).2.2 =
               some e := by rw [← hthr, hl]
           simp only [hl, hl']
           rw [hcons, hcons, argsDoneEvents_append, argsDoneEvents_append,
             argsDoneEvents_toolCallsLoop, argsDoneEvents_toolCallsLoop]
         | none =>
           have hl' : (processToolCallsLoop (eventToolCalls parsed) pt' []).2.2 =
               none := by rw [← hthr, hl]
           simp only [hl, hl']
           rw [hcons, hcons, argsDoneEvents_append, argsDoneEvents_append,
             argsDoneEvents_append, argsDoneEvents_append, argsDoneEvents_append,
             argsDoneEvents_append, argsDoneEvents_toolCallsLoop,
             argsDoneEvents_toolCallsLoop])

theorem sleepEvents_processLine (pt : List (Rat × PartialCall))
    (fin : Option String) (line : List Char) :
    sleepEvents (processLine pt fin line).2.2.1 = [] := by
  unfold processLine
  dsimp only
  split
  · rfl
  · split
    · rfl
    · split
      · rfl
      · exact sleepEvents_processEvent _ _ _

theorem sleepEvents_linesLoop (lines : List (List Char))
    (pt : List (Rat × PartialCall)) (fin : Option String) (acc : List CbEvent) :
    sleepEvents (processLinesLoop lines pt fin acc).2.2.1 = sleepEvents acc := by
  induction lines generalizing pt fin acc with
  | nil => rfl
  | cons l rest ih =>
    simp only [processLinesLoop]
    cases hthrow : (processLine pt fin l).2.2.2 with
    | none =>
      rw [ih, sleepEvents_append, sleepEvents_processLine, List.append_nil]
    | some e =>
      dsimp only
      rw [sleepEvents_append, sleepEvents_processLine, List.append_nil]

theorem sleepEvents_processRead (st : StreamProcState) (chunk : String) :
    sleepEvents (processRead st chunk).2.1 = [] := by
  unfold processRead
  dsimp only
  rw [sleepEvents_linesLoop]
  rfl

theorem sleepEvents_chunksLoop (chunks : List String)
    (st : StreamProcState) (acc : List CbEvent) :
    sleepEvents (processChunksLoop chunks st acc).2.1 = sleepEvents acc := by
  induction chunks generalizing st acc with
  | nil => rfl
  | cons c rest ih =>
    simp only [processChunksLoop]
    cases hthrow : (processRead st c).2.2 with
    | none =>
      rw [ih, sleepEvents_append, sleepEvents_processRead, List.append_nil]
    | some e =>
      dsimp only
      rw [sleepEvents_append, sleepEvents_processRead, List.append_nil]

/-- The 2xx stream processing performs no backoff sleeps: every sleep in a
`streamToolCalls` trace comes from the retry loop. -/
theorem sleepEvents_processChunks (chunks : List String) :
    sleepEvents (processChunks chunks).2.1 = [] := by
  unfold processChunks
  rw [sleepEvents_chunksLoop]
  rfl

end VideoAnalyzer

namespace VideoAnalyzer

/-- C7 counterexample: with one logical tool call whose argument fragments
arrive in two different events, the finish event's arguments-complete callback
carries only the final event's fragment "1\x7d", not the full concatenation
"\x7b\"a\":1\x7d" (which the per-index merge table does hold). -/
theorem argumentsDone_not_full_concatenation :
    argsDoneEvents (processChunks [sseChunk1, sseChunk2]).2.1 = ["1\x7d"] ∧
    lookupPartial (processChunks [sseChunk1, sseChunk2]).1.partialToolCalls 0 =
      some ⟨some ("c1"), some ("keep_playing"), "\x7b\"a\":1\x7d", true⟩ ∧
    ("1\x7d" : String) ≠ "\x7b\"a\":" ++ "1\x7d" :=
  ⟨rfl, rfl, by decide⟩

/-- C7 (amended): the arguments-complete callback raised on a finish event
carries the concatenation of only that event's own argument fragments —
provably independent of the state accumulated from earlier events — while the
full cross-event concatenation, merged by the call's positional index, is
delivered through the function-call callback once the name is known from the
merge table; the reconstruction is invariant under re-chunking the same bytes
at different read boundaries. -/
theorem argumentsDone_finish_event_only :
    (∀ (parsed : Json) (pt pt' : List (Rat × PartialCall))
        (fin fin' : Option String),
      argsDoneEvents (processEvent parsed pt fin).2.2.1 =
      argsDoneEvents (processEvent parsed pt' fin').2.2.1) ∧
    argsDoneEvents (processChunks [sseChunk1, sseChunk2]).2.1 = ["1\x7d"] ∧
    functionCallEvents (processChunks [sseChunk1, sseChunk2]).2.1 =
      [(some ("c1"), "keep_playing", "\x7b\"a\":"),
       (some ("c1"), "keep_playing", "\x7b\"a\":1\x7d")] ∧
    processChunks [sseChunk1, sseChunk2] =
      processChunks [sseChunk1 ++ sseChunk2] ∧
    processChunks [sseChunk1, sseChunk2] =
      processChunks
        [String.mk ((sseChunk1 ++ sseChunk2).toList.take 17),
         String.mk (((sseChunk1 ++ sseChunk2).toList.drop 17).take 40),
         String.mk ((sseChunk1 ++ sseChunk2).toList.drop 57)] :=
  ⟨argsDoneEvents_processEvent_indep, rfl, rfl, rfl, rfl⟩

/-- C6 (code bug): the 404 image-rejection `throw` of line 143 sits inside the
`try` block, so the generic `catch` of line 274 treats it as retryable. With a
fallback model configured the client sleeps a backoff and retries the next
model instead of failing immediately — here it even succeeds. The descriptive
model-naming error surfaces only when the failing attempt is the last one, and
then wrapped by the catch block (which is why the repository's single-model
test still passes). -/
theorem streamToolCalls_image404_retries_instead_of_failing :
    streamToolCalls (mkClientConfig ("model-a") ["model-b"] none) imgMessages
      (fun n => if n = 0 then .resp 404 "Not Found" imgBody404 []
                else .resp 200 "OK" "" [])
      (fun _ => 1/2) =
      ([.modelSelected ("model-a") 1 none, .modelSelected ("model-a") 1 none,
        .sleep (backoffDelay 0 (1/2)),
        .modelSelected ("model-b") 2 none, .modelSelected ("model-b") 2 (some 200)],
       .ok ()) ∧
    backoffDelay 0 (1/2) = 1000 ∧
    streamToolCalls (mkClientConfig ("mistralai/test-model") [] none) imgMessages
      (fun _ => .resp 404 "Not Found" imgBody404 [])
      (fun _ => 1/2) =
      ([.modelSelected ("mistralai/test-model") 1 none,
        .modelSelected ("mistralai/test-model") 1 none],
       .error (wrappedAttemptError ("mistralai/test-model")
        (imageUnsupportedMessage ("mistralai/test-model")
          "No endpoints found that support image input"))) :=
  ⟨rfl, by norm_num [backoffDelay, jsRound], rfl⟩

end VideoAnalyzer


namespace VideoAnalyzer

/-- C5: with candidate models `[A, B]`, a 429 (or any ≥500) response from A on
the non-last attempt produces exactly one backoff sleep — whose duration is
`1000 * 2^0 * j` milliseconds for a jitter `j ∈ [0.8, 1.2]` — followed by a
retry with the next candidate model; a subsequent 2xx from B whose stream
processes without a throw makes the call succeed using B. A 429/≥500 on the
last attempt makes the call fail with the HTTP error, wrapped by the catch
block with the model name (the catch block's abort test is negative, since
the HTTP error text does not contain "aborted"). -/
theorem streamToolCalls_retry_backoff
    (A B statusText statusText2 body body2 : String) (msgs : List ChatMessage)
    (status status2 : Nat) (chunks : List String) (r : Rat)
    (hA : A.isEmpty = false) (hB : B.isEmpty = false)
    (hst : status = 429 ∨ 500 ≤ status)
    (hst2 : status2 = 429 ∨ 500 ≤ status2)
    (hr0 : 0 ≤ r) (hr1 : r < 1)
    (hchunksOk : (processChunks chunks).2.2 = none)
    (habort2 : containsSub
      ((httpErrorMessage status2 statusText2 body2).toList.map Char.toLower)
      ("aborted".toList) = false) :
    (streamToolCalls (mkClientConfig A [B] none) msgs
      (fun n => if n = 0 then AttemptResponse.resp status statusText body []
                else AttemptResponse.resp 200 statusText2 body2 chunks)
      (fun _ => r) =
      ([.modelSelected A 1 none, .modelSelected A 1 (some status),
        .sleep (backoffDelay 0 r), .modelSelected B 2 none,
        .modelSelected B 2 (some 200)] ++ (processChunks chunks).2.1, .ok ())) ∧
    sleepEvents
      ([.modelSelected A 1 none, .modelSelected A 1 (some status),
        .sleep (backoffDelay 0 r), .modelSelected B 2 none,
        .modelSelected B 2 (some 200)] ++ (processChunks chunks).2.1) =
      [backoffDelay 0 r] ∧
    (∃ j : Rat, 4/5 ≤ j ∧ j ≤ 6/5 ∧
      (backoffDelay 0 r : Rat) = 1000 * 2 ^ (0 : Nat) * j) ∧
    (streamToolCalls (mkClientConfig A [B] none) msgs
      (fun n => if n = 0 then AttemptResponse.resp status statusText body []
                else AttemptResponse.resp status2 statusText2 body2 [])
      (fun _ => r) =
      ([.modelSelected A 1 none, .modelSelected A 1 (some status),
        .sleep (backoffDelay 0 r), .modelSelected B 2 none,
        .modelSelected B 2 (some status2), .modelSelected B 2 none],
       .error (wrappedAttemptError B (httpErrorMessage status2 statusText2 body2)))) := by
  have hcfg : mkClientConfig A [B] none = ⟨[A, B], 2⟩ := by
    simp [mkClientConfig, List.filter, hA, hB]
  have hnot2xx : ¬ (200 ≤ status ∧ status ≤ 299) := by
    rcases hst with rfl | h <;> omega
  have hnot2xx2 : ¬ (200 ≤ status2 ∧ status2 ≤ 299) := by
    rcases hst2 with rfl | h <;> omega
  have h404 : status ≠ 404 := by rcases hst with rfl | h <;> omega
  have h404b : status2 ≠ 404 := by rcases hst2 with rfl | h <;> omega
  have himg : ∀ (hi : Bool) (em : Option String),
      imageRejected status hi em = false := by
    intro hi em
    simp [imageRejected, h404]
  have himg2 : ∀ (hi : Bool) (em : Option String),
      imageRejected status2 hi em = false := by
    intro hi em
    simp [imageRejected, h404b]
  have e2xx : (200 ≤ status ∧ status ≤ 299) = False := eq_false hnot2xx
  have e2xx2 : (200 ≤ status2 ∧ status2 ≤ 299) = False := eq_false hnot2xx2
  have eretry : (status = 429 ∨ 500 ≤ status) = True := eq_true hst
  have eretry2 : (status2 = 429 ∨ 500 ≤ status2) = True := eq_true hst2
  refine ⟨?_, ?_, ?_, ?_⟩
  · unfold streamToolCalls
    rw [hcfg]
    simp [streamAttempts, catchRetry, ClientConfig.attemptBound,
      e2xx, eretry, himg, hchunksOk]
  · rw [sleepEvents_append, sleepEvents_processChunks]
    simp [sleepEvents]
  · refine ⟨((backoffDelay 0 r : Int) : Rat) / 1000, ?_, ?_, ?_⟩
    · have h800 : (800 : Int) ≤ backoffDelay 0 r := by
        rw [backoffDelay, jsRound]
        apply Int.le_floor.mpr
        push_cast
        nlinarith
      rw [show (4 : Rat)/5 = 800/1000 by norm_num]
      exact (div_le_div_iff_of_pos_right (by norm_num)).mpr (by exact_mod_cast h800)
    · have h1200 : backoffDelay 0 r ≤ 1200 := by
        rw [backoffDelay, jsRound]
        have hlt : (1000 : Rat) * 2 ^ (0 : Nat) * (4/5 + r * (2/5)) + 1/2 <
            ((1201 : Int) : Rat) := by
          push_cast
          nlinarith
        have := Int.floor_lt.mpr hlt
        omega
      rw [show (6 : Rat)/5 = 1200/1000 by norm_num]
      exact (div_le_div_iff_of_pos_right (by norm_num)).mpr (by exact_mod_cast h1200)
    · field_simp
  · have habort2' : containsSub
        (List.map Char.toLower (httpErrorMessage status2 statusText2 body2).data)
        (['a', 'b', 'o', 'r', 't', 'e', 'd']) = false := habort2
    unfold streamToolCalls
    rw [hcfg]
    simp [streamAttempts, catchRetry, ClientConfig.attemptBound,
      e2xx, e2xx2, eretry, eretry2, himg, himg2, habort2']

end VideoAnalyzer

namespace VideoAnalyzer

theorem streamToolCalls_retry_backoff_witness :
    ("model-a" : String).isEmpty = false ∧
    ("model-b" : String).isEmpty = false ∧
    (429 = 429 ∨ 500 ≤ 429) ∧
    (503 = 429 ∨ 500 ≤ 503) ∧
    (0 : Rat) ≤ 1/2 ∧ (1/2 : Rat) < 1 ∧
    (processChunks []).2.2 = none ∧
    containsSub
      ((httpErrorMessage 503 "Service Unavailable" "b2").toList.map Char.toLower)
      ("aborted".toList) = false ∧
    ((streamToolCalls (mkClientConfig ("model-a") ["model-b"] none) []
      (fun n => if n = 0
        then AttemptResponse.resp 429 "Too Many Requests" "b1" []
        else AttemptResponse.resp 200 "Service Unavailable" "b2" [])
      (fun _ => 1/2) =
      ([.modelSelected ("model-a") 1 none, .modelSelected ("model-a") 1 (some 429),
        .sleep (backoffDelay 0 (1/2)), .modelSelected ("model-b") 2 none,
        .modelSelected ("model-b") 2 (some 200)] ++ (processChunks []).2.1, .ok ())) ∧
    sleepEvents
      ([.modelSelected ("model-a") 1 none, .modelSelected ("model-a") 1 (some 429),
        .sleep (backoffDelay 0 (1/2)), .modelSelected ("model-b") 2 none,
        .modelSelected ("model-b") 2 (some 200)] ++ (processChunks []).2.1) =
      [backoffDelay 0 (1/2)] ∧
    (∃ j : Rat, 4/5 ≤ j ∧ j ≤ 6/5 ∧
      (backoffDelay 0 (1/2) : Rat) = 1000 * 2 ^ (0 : Nat) * j) ∧
    (streamToolCalls (mkClientConfig ("model-a") ["model-b"] none) []
      (fun n => if n = 0
        then AttemptResponse.resp 429 "Too Many Requests" "b1" []
        else AttemptResponse.resp 503 "Service Unavailable" "b2" [])
      (fun _ => 1/2) =
      ([.modelSelected ("model-a") 1 none, .modelSelected ("model-a") 1 (some 429),
        .sleep (backoffDelay 0 (1/2)), .modelSelected ("model-b") 2 none,
        .modelSelected ("model-b") 2 (some 503), .modelSelected ("model-b") 2 none],
       .error (wrappedAttemptError ("model-b")
        (httpErrorMessage 503 "Service Unavailable" "b2"))))) :=
  ⟨rfl, rfl, Or.inl rfl, Or.inr (by norm_num), by norm_num, by norm_num,
    rfl, by decide,
    streamToolCalls_retry_backoff ("model-a") "model-b" "Too Many Requests"
      "Service Unavailable" "b1" "b2" [] 429 503 [] (1/2) rfl rfl
      (Or.inl rfl) (Or.inr (by norm_num)) (by norm_num) (by norm_num)
      rfl (by decide)⟩

end VideoAnalyzer
